import Mathlib

/-!
Verification of the core of the agent-go HTTPS-intercepting proxy.

The Go sources are shallowly embedded: pure functions become Lean functions,
stateful code becomes explicit state passing, machine integers become `Nat`
(all quantities involved are non-negative and far below 2^63), wall-clock
instants are whole Unix seconds, and effects that are external to the
repository (network peers, randomness, the Go standard library's AES-GCM,
base64 and JSON codecs) enter as explicit parameters or as symbolic values
whose modelling assumptions are documented at the definition site.
-/

/-! ## KeyRotator: `ProxyServer.getNextAPIKey`

The `ProxyServer` fields relevant to rotation are the immutable pool
`apiKeys` and the mutex-guarded cursor `keyIndex` (initialised to 0 in
`NewProxy`).  The mutex makes each call atomic; the embedding is the state
transition performed inside the critical section. -/

structure RotatorState where
  apiKeys : List String
  keyIndex : Nat
deriving DecidableEq

/-- `getNextAPIKey`: return the entry at the cursor and advance the cursor
modulo the pool size.  The Go code indexes with `p.apiKeys[p.keyIndex]`;
`getD` with default `""` is used here, and the invariant
`keyIndex < apiKeys.length` (which holds from the initial state 0 onwards)
makes the default unreachable. -/
def getNextAPIKey (p : RotatorState) : String × RotatorState :=
  (p.apiKeys.getD p.keyIndex "",
   { p with keyIndex := (p.keyIndex + 1) % p.apiKeys.length })

/-- State of the rotator after `n` calls. -/
def rotatorAfter (p : RotatorState) : Nat → RotatorState
  | 0 => p
  | n + 1 => (getNextAPIKey (rotatorAfter p n)).2

/-- The key returned by the `i`-th call, counting calls from 1. -/
def nthKey (p : RotatorState) (i : Nat) : String :=
  (getNextAPIKey (rotatorAfter p (i - 1))).1

theorem rotatorAfter_apiKeys (p : RotatorState) (n : Nat) :
    (rotatorAfter p n).apiKeys = p.apiKeys := by
  induction n with
  | zero => rfl
  | succ n ih => simp [rotatorAfter, getNextAPIKey, ih]

theorem rotatorAfter_keyIndex (ks : List String) (h : ks ≠ []) (n : Nat) :
    (rotatorAfter ⟨ks, 0⟩ n).keyIndex = n % ks.length := by
  have hlen : 0 < ks.length := List.length_pos.mpr h
  induction n with
  | zero => simp [rotatorAfter, Nat.zero_mod]
  | succ n ih =>
      simp only [rotatorAfter, getNextAPIKey, rotatorAfter_apiKeys, ih]
      conv_rhs => rw [Nat.add_mod]
      simp [Nat.mod_mod_of_dvd]

/-! ## Decimal formatting and parsing (`strconv.FormatInt` / `strconv.Atoi`,
base 10, values in `Nat` range).  Used by the token codec (expiry stamp)
and by the auth-result header (`strconv.Itoa` / `strconv.Atoi`). -/

/-- Big-endian decimal digit characters of `n` (empty for 0). -/
def natDigitsBE (n : Nat) : List Char :=
  ((Nat.digits 10 n).map Nat.digitChar).reverse

/-- Decimal rendering of a natural number, as `strconv.FormatInt(n, 10)`
produces for non-negative `n`. -/
def encodeNat (n : Nat) : List Char :=
  if n = 0 then ['0'] else natDigitsBE n

def parseNatStep (a : Nat) (c : Char) : Nat := 10 * a + (c.toNat - 48)

/-- Decimal parsing as `strconv.ParseInt(s, 10, 64)` behaves on the inputs
arising here: rejects the empty string and any non-digit character
(the sign handling and the 64-bit overflow check never fire on the values
this program round-trips). -/
def parseNat (cs : List Char) : Option Nat :=
  if cs = [] then none
  else if cs.all (fun c => c.isDigit) then some (cs.foldl parseNatStep 0)
  else none

theorem digitChar_isDigit {d : Nat} (h : d < 10) :
    (Nat.digitChar d).isDigit = true := by
  interval_cases d <;> decide

theorem digitChar_ne_bar {d : Nat} (h : d < 10) : Nat.digitChar d ≠ '|' := by
  interval_cases d <;> decide

theorem parseNatStep_digitChar {d : Nat} (h : d < 10) (a : Nat) :
    parseNatStep a (Nat.digitChar d) = 10 * a + d := by
  interval_cases d <;> rfl

theorem foldl_parseNatStep_digits (L : List Nat) (hL : ∀ d ∈ L, d < 10) (a : Nat) :
    ((L.map Nat.digitChar).reverse).foldl parseNatStep a
      = a * 10 ^ L.length + Nat.ofDigits 10 L := by
  induction L generalizing a with
  | nil => simp [Nat.ofDigits]
  | cons d L ih =>
      have hd : d < 10 := hL d (List.mem_cons_self d L)
      have hL' : ∀ x ∈ L, x < 10 := fun x hx => hL x (List.mem_cons_of_mem d hx)
      simp only [List.map_cons, List.reverse_cons, List.foldl_append, List.foldl_cons,
        List.foldl_nil, ih hL', Nat.ofDigits_cons, List.length_cons]
      rw [parseNatStep_digitChar hd]
      ring

theorem mem_natDigitsBE_isDigit (n : Nat) :
    ∀ c ∈ natDigitsBE n, c.isDigit = true := by
  intro c hc
  simp only [natDigitsBE, List.mem_reverse, List.mem_map] at hc
  obtain ⟨d, hd, rfl⟩ := hc
  exact digitChar_isDigit (Nat.digits_lt_base (by norm_num) hd)

theorem bar_not_mem_encodeNat (n : Nat) : '|' ∉ encodeNat n := by
  by_cases h : n = 0
  · subst h; decide
  · simp only [encodeNat, if_neg h, natDigitsBE, List.mem_reverse, List.mem_map]
    rintro ⟨d, hd, hEq⟩
    exact digitChar_ne_bar (Nat.digits_lt_base (by norm_num) hd) hEq

theorem encodeNat_ne_nil (n : Nat) : encodeNat n ≠ [] := by
  by_cases h : n = 0
  · subst h; decide
  · simp only [encodeNat, if_neg h, natDigitsBE]
    simp only [ne_eq, List.reverse_eq_nil_iff, List.map_eq_nil_iff]
    exact Nat.digits_ne_nil_iff_ne_zero.mpr h

theorem parseNat_encodeNat (n : Nat) : parseNat (encodeNat n) = some n := by
  by_cases h : n = 0
  · subst h; decide
  · have hne : natDigitsBE n ≠ [] := by
      simpa [encodeNat, if_neg h] using encodeNat_ne_nil n
    have hdig : (natDigitsBE n).all (fun c => c.isDigit) = true := by
      rw [List.all_eq_true]
      exact fun c hc => mem_natDigitsBE_isDigit n c hc
    have hfold : (natDigitsBE n).foldl parseNatStep 0 = n := by
      have := foldl_parseNatStep_digits (Nat.digits 10 n)
        (fun d hd => Nat.digits_lt_base (by norm_num) hd) 0
      simpa [natDigitsBE, Nat.ofDigits_digits] using this
    simp [parseNat, encodeNat, if_neg h, hne, hdig, hfold]

/-- Claim C2: with a pool of N ≥ 1 keys and the cursor starting at 0, the
i-th call (counting from 1) to `getNextAPIKey` returns the pool entry at
position (i-1) mod N; in particular with pool [K1,K2,K3] four serial calls
return K1, K2, K3, K1. -/
theorem spec_C2_key_rotation (ks : List String) (h : ks ≠ []) (i : Nat) :
    (nthKey ⟨ks, 0⟩ i = ks.getD ((i - 1) % ks.length) "") ∧
    (nthKey ⟨["K1", "K2", "K3"], 0⟩ 1 = "K1" ∧
     nthKey ⟨["K1", "K2", "K3"], 0⟩ 2 = "K2" ∧
     nthKey ⟨["K1", "K2", "K3"], 0⟩ 3 = "K3" ∧
     nthKey ⟨["K1", "K2", "K3"], 0⟩ 4 = "K1") := by
  refine ⟨?_, by decide⟩
  simp [nthKey, getNextAPIKey, rotatorAfter_apiKeys, rotatorAfter_keyIndex ks h]

/-- Witness for C2 at a concrete pool and call index. -/
theorem spec_C2_key_rotation_witness :
    nthKey ⟨["A", "B"], 0⟩ 4 = ["A", "B"].getD ((4 - 1) % 2) "" :=
  (spec_C2_key_rotation ["A", "B"] (by decide) 4).1

/-! ## Splitting on a separator character (`strings.Split(s, "|")`).

Go's `strings.Split` with a one-character separator cuts at every
occurrence of that character; `splitOnChar` is that function on the
character list underlying the string. -/

def splitOnChar (sep : Char) : List Char → List (List Char)
  | [] => [[]]
  | c :: rest =>
    if c = sep then [] :: splitOnChar sep rest
    else
      match splitOnChar sep rest with
      | [] => [[c]]
      | p :: ps => (c :: p) :: ps

theorem splitOnChar_ne_nil (sep : Char) (l : List Char) :
    splitOnChar sep l ≠ [] := by
  induction l with
  | nil => simp [splitOnChar]
  | cons c rest ih =>
      simp only [splitOnChar]
      by_cases h : c = sep
      · simp [h]
      · simp only [if_neg h]
        rcases hr : splitOnChar sep rest with _ | ⟨p, ps⟩ <;> simp

theorem length_splitOnChar (sep : Char) (l : List Char) :
    (splitOnChar sep l).length = l.count sep + 1 := by
  induction l with
  | nil => simp [splitOnChar]
  | cons c rest ih =>
      simp only [splitOnChar]
      by_cases h : c = sep
      · simp [h, List.count_cons, ih]
      · simp only [if_neg h]
        rcases hr : splitOnChar sep rest with _ | ⟨p, ps⟩
        · exact absurd hr (splitOnChar_ne_nil sep rest)
        · have h2 := ih
          rw [hr] at h2
          rw [List.count_cons_of_ne (fun hEq => h hEq.symm)]
          simp only [List.length_cons] at h2 ⊢
          omega

theorem splitOnChar_no_sep (sep : Char) (e : List Char) (he : sep ∉ e) :
    splitOnChar sep e = [e] := by
  induction e with
  | nil => rfl
  | cons c rest ih =>
      have hc : c ≠ sep := fun hEq => he (hEq ▸ List.mem_cons_self c rest)
      have hrest : sep ∉ rest := fun hm => he (List.mem_cons_of_mem c hm)
      simp [splitOnChar, hc, ih hrest]

theorem splitOnChar_append_sep (sep : Char) (a e : List Char) (ha : sep ∉ a) :
    splitOnChar sep (a ++ sep :: e) = a :: splitOnChar sep e := by
  induction a with
  | nil => simp [splitOnChar]
  | cons c a ih =>
      have hc : c ≠ sep := fun hEq => ha (hEq ▸ List.mem_cons_self c a)
      have ha' : sep ∉ a := fun hm => ha (List.mem_cons_of_mem c hm)
      simp only [List.cons_append, splitOnChar, if_neg hc, List.append_eq]
      rw [ih ha']

/-! ## TokenCodec: `GenerateTempToken` / `DecodeToken` (token_util.go).

Modelling assumptions for the standard-library primitives (all external to
the repository):
* AES-256-GCM with per-day key is symbolic: a `SealedToken` records the
  day-derived key, the random nonce and the plaintext; `decryptAES`
  succeeds exactly under the sealing key (authenticated encryption:
  decryption under any other daily key fails, since `generateDailyKey`
  (SHA-256 of the fixed server secret and the `YYYYMMDD` date) yields
  distinct keys on distinct UTC days).
* The day of an instant is its Unix-seconds value divided by 86400
  (`YYYYMMDD` formatting in UTC is injective per day, and
  `AddDate(0, 0, -1)` is exactly 86400 seconds earlier).
* base64url is carried by the `SealedToken` value itself; its decode step
  cannot fail on tokens produced by `GenerateTempToken`, and
  `encryptAES` cannot fail on a 32-byte key, so those two error returns
  of the Go code have no counterpart here. -/

structure SealedToken where
  dayKey : Nat
  nonce : Nat
  plaintext : List Char
deriving DecidableEq

def generateDailyKey (t : Nat) : Nat := t / 86400

def encryptAES (data : List Char) (key nonce : Nat) : SealedToken :=
  ⟨key, nonce, data⟩

def decryptAES (tok : SealedToken) (key : Nat) : Option (List Char) :=
  if tok.dayKey = key then some tok.plaintext else none

/-- `TokenExpiry` (seconds): the fixed TTL the Go source passes. -/
def TokenExpiry : Nat := 60

/-- `GenerateTempToken`: seal `authKey ++ "|" ++ expiry` under the daily key
of the sealing instant.  The Go function always uses `ttl = TokenExpiry`;
the TTL is kept as a parameter so that the quantification of the claim can
be stated, and `TokenExpiry` is the value the source instantiates it at. -/
def GenerateTempToken (authKey : String) (ttl now nonce : Nat) : SealedToken :=
  encryptAES (authKey.data ++ '|' :: encodeNat (now + ttl)) (generateDailyKey now) nonce

/-- The part of `DecodeToken` after a successful decrypt: split on `'|'`,
require exactly two parts, parse the expiry, reject stale tokens. -/
def decodeTokenParts (pt : List Char) (now : Nat) : Except String String :=
  match splitOnChar '|' pt with
  | [authKey, expiryStr] =>
    match parseNat expiryStr with
    | none => .error "无效的过期时间"
    | some expiry =>
      if now > expiry then .error "token已过期" else .ok (String.mk authKey)
  | _ => .error "token格式错误"

/-- `DecodeToken`: try today's daily key, fall back to yesterday's, then
parse the recovered plaintext. -/
def DecodeToken (tok : SealedToken) (now : Nat) : Except String String :=
  match decryptAES tok (generateDailyKey now) with
  | some pt => decodeTokenParts pt now
  | none =>
    match decryptAES tok (generateDailyKey (now - 86400)) with
    | some pt => decodeTokenParts pt now
    | none => .error "token解密失败"

theorem decodeTokenParts_roundtrip (r : String) (expiry now : Nat)
    (hbar : '|' ∉ r.data) (h : now ≤ expiry) :
    decodeTokenParts (r.data ++ '|' :: encodeNat expiry) now = .ok r := by
  have hs : splitOnChar '|' (r.data ++ '|' :: encodeNat expiry)
      = [r.data, encodeNat expiry] := by
    rw [splitOnChar_append_sep _ _ _ hbar,
      splitOnChar_no_sep _ _ (bar_not_mem_encodeNat expiry)]
  simp only [decodeTokenParts, hs, parseNat_encodeNat]
  rw [if_neg (by omega)]

theorem decodeTokenParts_format_error (pt : List Char) (now : Nat)
    (h : (splitOnChar '|' pt).length ≠ 2) :
    decodeTokenParts pt now = .error "token格式错误" := by
  rcases hs : splitOnChar '|' pt with _ | ⟨a, _ | ⟨b, _ | ⟨c, l⟩⟩⟩
  · simp [decodeTokenParts, hs]
  · simp [decodeTokenParts, hs]
  · rw [hs] at h; simp at h
  · simp [decodeTokenParts, hs]

/-- Claim C4 (amended): the seal/open round-trip holds whenever the raw
credential contains no `'|'`, `now` is within the TTL of the sealing
instant, and `now` falls on the same UTC day as sealing or on the
following one (first the key for the current day is tried, then, on
decryption failure, the previous day's key). -/
theorem spec_C4_token_roundtrip (r : String) (ttl t0 t1 nonce : Nat)
    (hbar : '|' ∉ r.data) (hwithin : t1 ≤ t0 + ttl)
    (hday : t1 / 86400 = t0 / 86400 ∨ t1 / 86400 = t0 / 86400 + 1) :
    DecodeToken (GenerateTempToken r ttl t0 nonce) t1 = .ok r := by
  have hparts := decodeTokenParts_roundtrip r (t0 + ttl) t1 hbar hwithin
  rcases hday with hd | hd
  · simp only [DecodeToken, GenerateTempToken, encryptAES, decryptAES, generateDailyKey]
    rw [if_pos hd.symm]
    exact hparts
  · have hne : t0 / 86400 ≠ t1 / 86400 := by omega
    have hy : (t1 - 86400) / 86400 = t0 / 86400 := by
      have hq1 : 1 ≤ t1 / 86400 := by omega
      have hmod : t1 % 86400 < 86400 := Nat.mod_lt _ (by norm_num)
      have hdm : 86400 * (t1 / 86400) + t1 % 86400 = t1 := Nat.div_add_mod t1 86400
      have hsub : t1 - 86400 = 86400 * (t1 / 86400 - 1) + t1 % 86400 := by omega
      rw [hsub, Nat.mul_add_div (by norm_num), Nat.div_eq_of_lt hmod]
      omega
    simp only [DecodeToken, GenerateTempToken, encryptAES, decryptAES, generateDailyKey]
    rw [if_neg hne, if_pos hy.symm]
    exact hparts

/-- Witness for C4 (amended): the spec's midnight scenario.  `RAW` is sealed
at 2024-06-01 23:59:50Z (Unix 1717286390) and opened at
2024-06-02 00:00:10Z (Unix 1717286410), on the following UTC day and within
the 60-second TTL; the original credential is recovered. -/
theorem spec_C4_token_roundtrip_witness :
    DecodeToken (GenerateTempToken "RAW" 60 1717286390 0) 1717286410 = .ok "RAW" :=
  spec_C4_token_roundtrip "RAW" 60 1717286390 1717286410 0 (by decide)
    (by omega) (by decide)

/-- Counterexample to claim C4 as stated: with the raw credential `a|b`
(which contains `'|'`), opening immediately, on the same UTC day and within
the TTL, yields the format error instead of the credential. -/
theorem spec_C4_counterexample :
    DecodeToken (GenerateTempToken "a|b" 60 100 0) 100 = .error "token格式错误" := by
  have hlen : (splitOnChar '|' (("a|b").data ++ '|' :: encodeNat (100 + 60))).length ≠ 2 := by
    rw [length_splitOnChar, List.count_append, List.count_cons_self,
      List.count_eq_zero.mpr (bar_not_mem_encodeNat (100 + 60))]
    decide
  have herr := decodeTokenParts_format_error (("a|b").data ++ '|' :: encodeNat (100 + 60)) 100 hlen
  show DecodeToken ⟨generateDailyKey 100, 0, ("a|b").data ++ '|' :: encodeNat (100 + 60)⟩ 100
      = .error "token格式错误"
  simp only [DecodeToken, decryptAES, if_pos rfl]
  exact herr

/-- Claim C10: when the raw credential contains `'|'`, the sealed plaintext
splits into more than two parts, so `DecodeToken` of its sealed token never
returns `ok` — at any opening time and for any TTL. -/
theorem spec_C10_pipe_credential_rejected (r : String) (ttl t0 t1 nonce : Nat)
    (hbar : '|' ∈ r.data) (s : String) :
    DecodeToken (GenerateTempToken r ttl t0 nonce) t1 ≠ .ok s := by
  have hpos : 0 < r.data.count '|' := List.count_pos_iff.mpr hbar
  have hlen : (splitOnChar '|' (r.data ++ '|' :: encodeNat (t0 + ttl))).length ≠ 2 := by
    rw [length_splitOnChar, List.count_append, List.count_cons_self]
    omega
  have herr := decodeTokenParts_format_error (r.data ++ '|' :: encodeNat (t0 + ttl)) t1 hlen
  simp only [DecodeToken, GenerateTempToken, encryptAES, decryptAES, generateDailyKey]
  by_cases h1 : t0 / 86400 = t1 / 86400
  · rw [if_pos h1]
    simp [herr]
  · rw [if_neg h1]
    by_cases h2 : t0 / 86400 = (t1 - 86400) / 86400
    · rw [if_pos h2]
      simp [herr]
    · rw [if_neg h2]
      simp

/-- Witness for C10 at a concrete pipe-containing credential, opened within
the TTL on the sealing day. -/
theorem spec_C10_pipe_credential_rejected_witness :
    DecodeToken (GenerateTempToken "a|b" 60 100 0) 160 ≠ .ok "a|b" :=
  spec_C10_pipe_credential_rejected "a|b" 60 100 160 0 (by decide) "a|b"

/-! ## DefenseSystem rate limiter: `RateLimiter.CheckAndUpdateLimit`.

The two mutex-guarded maps become functions `String → Option _`; `mapSet`
is map insertion/deletion.  Instants and the window length are whole
seconds, the ban timeout whole minutes, exactly as in the source (the Go
code compares `now.Sub(start).Seconds() > float64(window)`, which on whole
seconds is the integer comparison used here).  `Duration.Round(time.Minute)`
rounds to the nearest minute with ties away from zero, so the remaining
minutes printed for a live ban are `(remaining + 30) / 60`. -/

structure IPRequestInfo where
  count : Nat
  windowStart : Nat
deriving DecidableEq

structure RateLimiter where
  ipRequests : String → Option IPRequestInfo
  blacklist : String → Option Nat
  window : Nat
  maxRequests : Nat
  blacklistTimeout : Nat

def mapSet {α : Type} (m : String → Option α) (k : String) (v : Option α) :
    String → Option α :=
  fun q => if q = k then v else m q

def activeBanMessage (banUntil now : Nat) : String :=
  "IP已被临时封禁，剩余时间：约" ++ toString ((banUntil - now + 30) / 60) ++ "分钟"

def newBanMessage (timeoutMinutes : Nat) : String :=
  "请求频率过高，IP已被临时封禁" ++ toString timeoutMinutes ++ "分钟"

/-- The window bookkeeping of `CheckAndUpdateLimit`, i.e. everything after
the blacklist check: create or reset the window, otherwise increment the
count (also when the increment leads to a denial — the Go code mutates the
map entry through a pointer before comparing) and insert a ban when the
count exceeds the limit. -/
def rateLimiterWindowStep (rl : RateLimiter) (ip : String) (now : Nat) :
    (Bool × String) × RateLimiter :=
  match rl.ipRequests ip with
  | none =>
    ((true, ""), { rl with ipRequests := mapSet rl.ipRequests ip (some ⟨1, now⟩) })
  | some info =>
    if now - info.windowStart > rl.window then
      ((true, ""), { rl with ipRequests := mapSet rl.ipRequests ip (some ⟨1, now⟩) })
    else
      let rl1 : RateLimiter :=
        { rl with ipRequests := mapSet rl.ipRequests ip (some ⟨info.count + 1, info.windowStart⟩) }
      if info.count + 1 > rl.maxRequests then
        ((false, newBanMessage rl.blacklistTimeout),
         { rl1 with blacklist := mapSet rl1.blacklist ip (some (now + 60 * rl.blacklistTimeout)) })
      else
        ((true, ""), rl1)

/-- `CheckAndUpdateLimit`: a live ban denies immediately and touches
nothing; an expired ban entry is deleted and then the window logic runs. -/
def CheckAndUpdateLimit (rl : RateLimiter) (ip : String) (now : Nat) :
    (Bool × String) × RateLimiter :=
  match rl.blacklist ip with
  | some banUntil =>
    if now < banUntil then
      ((false, activeBanMessage banUntil now), rl)
    else
      rateLimiterWindowStep { rl with blacklist := mapSet rl.blacklist ip none } ip now
  | none => rateLimiterWindowStep rl ip now

/-- Empty rate-limiter state with the scenario parameters W=10s, N=2, B=1min. -/
def rlScenario0 : RateLimiter :=
  { ipRequests := fun _ => none, blacklist := fun _ => none,
    window := 10, maxRequests := 2, blacklistTimeout := 1 }

def rlScenario1 : (Bool × String) × RateLimiter :=
  CheckAndUpdateLimit rlScenario0 "1.2.3.4" 0

def rlScenario2 : (Bool × String) × RateLimiter :=
  CheckAndUpdateLimit rlScenario1.2 "1.2.3.4" 1

def rlScenario3 : (Bool × String) × RateLimiter :=
  CheckAndUpdateLimit rlScenario2.2 "1.2.3.4" 2

def rlScenario4 : (Bool × String) × RateLimiter :=
  CheckAndUpdateLimit rlScenario3.2 "1.2.3.4" 32

def rlScenario5 : (Bool × String) × RateLimiter :=
  CheckAndUpdateLimit rlScenario4.2 "1.2.3.4" 63

/-- Claim C5: the per-call behaviour of the rate limiter — live ban denies
with the remaining minutes; absent or expired window starts (count 1, now)
and allows; otherwise the count is incremented and a count exceeding N
inserts a ban until now + B minutes and denies; and the W=10/N=2/B=1
scenario: three requests at t=0,1,2 give allow, allow, deny-with-ban, a
request at t=32 is still denied with a live-ban message, and a request at
t=63 is allowed again. -/
theorem spec_C5_rate_limiter (rl : RateLimiter) (ip : String) (now banUntil : Nat) :
    (rl.blacklist ip = some banUntil → now < banUntil →
      CheckAndUpdateLimit rl ip now = ((false, activeBanMessage banUntil now), rl)) ∧
    (rl.blacklist ip = none → rl.ipRequests ip = none →
      CheckAndUpdateLimit rl ip now =
        ((true, ""), { rl with ipRequests := mapSet rl.ipRequests ip (some ⟨1, now⟩) })) ∧
    (∀ info, rl.blacklist ip = none → rl.ipRequests ip = some info →
      now - info.windowStart > rl.window →
      CheckAndUpdateLimit rl ip now =
        ((true, ""), { rl with ipRequests := mapSet rl.ipRequests ip (some ⟨1, now⟩) })) ∧
    (∀ info, rl.blacklist ip = none → rl.ipRequests ip = some info →
      ¬ now - info.windowStart > rl.window → ¬ info.count + 1 > rl.maxRequests →
      CheckAndUpdateLimit rl ip now =
        ((true, ""),
         { rl with ipRequests := mapSet rl.ipRequests ip (some ⟨info.count + 1, info.windowStart⟩) })) ∧
    (∀ info, rl.blacklist ip = none → rl.ipRequests ip = some info →
      ¬ now - info.windowStart > rl.window → info.count + 1 > rl.maxRequests →
      CheckAndUpdateLimit rl ip now =
        ((false, newBanMessage rl.blacklistTimeout),
         { rl with
             ipRequests := mapSet rl.ipRequests ip (some ⟨info.count + 1, info.windowStart⟩),
             blacklist := mapSet rl.blacklist ip (some (now + 60 * rl.blacklistTimeout)) })) ∧
    (rlScenario1.1 = (true, "") ∧ rlScenario2.1 = (true, "") ∧
     rlScenario3.1 = (false, newBanMessage 1) ∧
     rlScenario4.1 = (false, activeBanMessage 62 32) ∧
     rlScenario5.1 = (true, "")) := by
  refine ⟨?_, ?_, ?_, ?_, ?_, by decide⟩
  · intro hb hlt
    simp [CheckAndUpdateLimit, hb, hlt]
  · intro hb hw
    simp [CheckAndUpdateLimit, rateLimiterWindowStep, hb, hw]
  · intro info hb hw hexp
    simp [CheckAndUpdateLimit, rateLimiterWindowStep, hb, hw, hexp]
  · intro info hb hw hexp hcnt
    simp [CheckAndUpdateLimit, rateLimiterWindowStep, hb, hw, hexp, hcnt]
  · intro info hb hw hexp hcnt
    simp [CheckAndUpdateLimit, rateLimiterWindowStep, hb, hw, hexp, hcnt]

/-- A limiter with a live ban entry for `1.2.3.4` until t=100. -/
def rlBanExample : RateLimiter :=
  { rlScenario0 with blacklist := mapSet (fun _ => none) "1.2.3.4" (some 100) }

/-- Witness for C5 at a concrete banned state. -/
theorem spec_C5_rate_limiter_witness :
    CheckAndUpdateLimit rlBanExample "1.2.3.4" 40
      = ((false, activeBanMessage 100 40), rlBanExample) :=
  (spec_C5_rate_limiter rlBanExample "1.2.3.4" 40 100).1 rfl (by decide)

/-- Claim C9: a call under a live ban is denied and leaves the whole
limiter state untouched, and a call at or after `banUntil` is exactly the
window logic run on the state with that blacklist entry deleted — so a
live-ban denial never consumes window budget nor extends the ban. -/
theorem spec_C9_live_ban_frame (rl : RateLimiter) (ip : String) (now banUntil : Nat)
    (hb : rl.blacklist ip = some banUntil) :
    (now < banUntil →
      CheckAndUpdateLimit rl ip now = ((false, activeBanMessage banUntil now), rl)) ∧
    (¬ now < banUntil →
      CheckAndUpdateLimit rl ip now =
        rateLimiterWindowStep { rl with blacklist := mapSet rl.blacklist ip none } ip now) := by
  constructor
  · intro hlt
    simp [CheckAndUpdateLimit, hb, hlt]
  · intro hge
    simp [CheckAndUpdateLimit, hb, hge]

/-- Witness for C9: under the live ban the state comes back unchanged. -/
theorem spec_C9_live_ban_frame_witness :
    CheckAndUpdateLimit rlBanExample "1.2.3.4" 70
      = ((false, activeBanMessage 100 70), rlBanExample) :=
  (spec_C9_live_ban_frame rlBanExample "1.2.3.4" 70 100 rfl).1 (by decide)

/-! ## The intercepted-session request rewriter and transport
(`mitmProxyLoop`'s `reverseProxy.Director` and `mitmTransport.RoundTrip`).

A request is modelled by the header and URL fields this code reads or
writes.  Go's `http.Header.Get` returns `""` for an absent header and
`url.Values.Get` returns `""` for an absent query parameter, and the code
only tests `!= ""`; accordingly a field value `""` means "absent". -/

structure GReq where
  hApiKey : String := ""
  qKey : String := ""
  hAuthCode : String := ""
  hAuthMsg : String := ""
  hProxyConnection : String := ""
  hProxyAuthorization : String := ""
  host : String := ""
  proto : String := "HTTP/1.1"
  protoMajor : Nat := 1
  protoMinor : Nat := 1
deriving DecidableEq

/-- Outcome of `Authenticator.Authenticate`: a verdict, a
`*AuthServerError` from the authorization server, or another error. -/
inductive AuthResult where
  | ok (isValid : Bool)
  | serverErr (statusCode : Nat) (message : String)
  | internalErr (message : String)
deriving DecidableEq

def itoaS (n : Nat) : String := String.mk (encodeNat n)

def atoiS (s : String) : Option Nat := parseNat s.data

theorem atoiS_itoaS (n : Nat) : atoiS (itoaS n) = some n := parseNat_encodeNat n

theorem itoaS_ne_empty (n : Nat) : itoaS n ≠ "" := by
  intro h
  exact encodeNat_ne_nil n (congrArg String.data h)

/-- The rows of Go's `http.StatusText` table for the codes this
development mentions; unknown codes yield `""` exactly as in Go. -/
def statusText (code : Nat) : String :=
  match code with
  | 200 => "OK"
  | 401 => "Unauthorized"
  | 403 => "Forbidden"
  | 404 => "Not Found"
  | 429 => "Too Many Requests"
  | 500 => "Internal Server Error"
  | 502 => "Bad Gateway"
  | 503 => "Service Unavailable"
  | 504 => "Gateway Timeout"
  | _ => ""

def googleHost : String := "generativelanguage.googleapis.com"

/-- The reverse proxy's `Director` on an intercepted session, given the
authentication outcome: a blocked outcome stamps the two synthetic headers
`X-Auth-Result-Code` / `X-Auth-Result-Message` and returns early; an
allowed outcome substitutes the upstream credential (header if present,
else URL `key` parameter if present, else a fresh header), strips the
hop-by-hop headers and forces the Host. -/
def mitmDirector (req : GReq) (rot : RotatorState) (auth : AuthResult)
    (targetHost : String) : GReq × RotatorState :=
  match auth with
  | .serverErr code msg =>
      ({ req with hAuthCode := itoaS code, hAuthMsg := msg }, rot)
  | .internalErr msg =>
      ({ req with hAuthCode := itoaS 500, hAuthMsg := "代理认证内部错误: " ++ msg }, rot)
  | .ok false =>
      ({ req with hAuthCode := itoaS 401, hAuthMsg := "认证失败" }, rot)
  | .ok true =>
      let nextKey := (getNextAPIKey rot).1
      let req1 :=
        if req.hApiKey ≠ "" then { req with hApiKey := nextKey }
        else if req.qKey ≠ "" then { req with qKey := nextKey }
        else { req with hApiKey := nextKey }
      ({ req1 with hProxyConnection := "", hProxyAuthorization := "", host := targetHost },
       (getNextAPIKey rot).2)

structure GResp where
  statusCode : Nat
  status : String
  proto : String
  protoMajor : Nat
  protoMinor : Nat
  contentType : String
  body : String
deriving DecidableEq

/-- Result of one `mitmTransport.RoundTrip`: the response handed to the
reverse proxy, the requests actually serialized onto the origin TLS
socket, and the request object after the transport touched its headers. -/
structure RoundTripOut where
  response : GResp
  sentToOrigin : List GReq
  finalReq : GReq
deriving DecidableEq

/-- `mitmTransport.RoundTrip`.  If the synthetic auth-result headers are
present, they are removed and a local response is synthesized (status from
`strconv.Atoi` of the code header, falling back to 500; body from the
message header, falling back to the standard status text and then to a
fixed string) and nothing is written to the origin.  Otherwise the request
is written to the origin socket and one response (`originResp`, an input
here: the origin is external) is read back. -/
def mitmRoundTrip (req : GReq) (originResp : GResp) : RoundTripOut :=
  if req.hAuthCode ≠ "" then
    let statusCode :=
      match atoiS req.hAuthCode with
      | some n => n
      | none => 500
    let authMsg :=
      if req.hAuthMsg ≠ "" then req.hAuthMsg
      else if statusText statusCode ≠ "" then statusText statusCode
      else "认证时发生未知错误"
    { response :=
        { statusCode := statusCode,
          status := itoaS statusCode ++ " " ++ statusText statusCode,
          proto := req.proto,
          protoMajor := req.protoMajor,
          protoMinor := req.protoMinor,
          contentType := "text/plain; charset=utf-8",
          body := authMsg },
      sentToOrigin := [],
      finalReq := { req with hAuthCode := "", hAuthMsg := "" } }
  else
    { response := originResp, sentToOrigin := [req], finalReq := req }

/-- The non-200 branch of `checkKeyInDatabase`: the error message is the
`message` field of the JSON body when `json.Unmarshal` succeeds on it and
the field is non-empty, else the raw body.  The unmarshal result of the Go
standard library is passed in as `parsedMessage`. -/
def authServerErrorOf (statusCode : Nat) (body : String)
    (parsedMessage : Option String) : AuthResult :=
  let errMsg :=
    match parsedMessage with
    | some m => if m ≠ "" then m else body
    | none => body
  .serverErr statusCode errMsg

/-- The nonempty credential values the client sent on the inbound request. -/
def sentCreds (req : GReq) : List String :=
  (if req.hApiKey ≠ "" then [req.hApiKey] else [])
    ++ (if req.qKey ≠ "" then [req.qKey] else [])

theorem empty_not_mem_sentCreds (req : GReq) : "" ∉ sentCreds req := by
  intro h
  simp only [sentCreds, List.mem_append] at h
  rcases h with h1 | h1
  · by_cases hk : req.hApiKey = ""
    · rw [if_neg (by simp [hk])] at h1
      exact absurd h1 (List.not_mem_nil "")
    · rw [if_pos hk] at h1
      exact hk (List.mem_singleton.mp h1).symm
  · by_cases hq : req.qKey = ""
    · rw [if_neg (by simp [hq])] at h1
      exact absurd h1 (List.not_mem_nil "")
    · rw [if_pos hq] at h1
      exact hq (List.mem_singleton.mp h1).symm

/-- Claim C1 (amended): on an allowed request the Director substitutes the
rotator's next key with priority header, then URL `key` parameter, then a
freshly added header; the substituted credential is an element of the pool;
and provided the request does not carry both credential slots at once and
no sent value is in the pool, no outbound credential slot equals any value
the client sent.  (When both slots are sent, only the header is replaced
and the URL `key` parameter keeps the client's value — see the
counterexample.) -/
theorem spec_C1_director_substitution (req : GReq) (rot : RotatorState)
    (th : String) (hlt : rot.keyIndex < rot.apiKeys.length) :
    ((req.hApiKey ≠ "" →
        ((mitmDirector req rot (.ok true) th).1).hApiKey = (getNextAPIKey rot).1 ∧
        ((mitmDirector req rot (.ok true) th).1).qKey = req.qKey) ∧
     (req.hApiKey = "" → req.qKey ≠ "" →
        ((mitmDirector req rot (.ok true) th).1).qKey = (getNextAPIKey rot).1 ∧
        ((mitmDirector req rot (.ok true) th).1).hApiKey = "") ∧
     (req.hApiKey = "" → req.qKey = "" →
        ((mitmDirector req rot (.ok true) th).1).hApiKey = (getNextAPIKey rot).1 ∧
        ((mitmDirector req rot (.ok true) th).1).qKey = "")) ∧
    (getNextAPIKey rot).1 ∈ rot.apiKeys ∧
    (¬(req.hApiKey ≠ "" ∧ req.qKey ≠ "") →
      (∀ v ∈ sentCreds req, v ∉ rot.apiKeys) →
      ((mitmDirector req rot (.ok true) th).1).hApiKey ∉ sentCreds req ∧
      ((mitmDirector req rot (.ok true) th).1).qKey ∉ sentCreds req) := by
  have hmem : (getNextAPIKey rot).1 ∈ rot.apiKeys := by
    simp only [getNextAPIKey]
    rw [List.getD_eq_getElem?_getD, List.getElem?_eq_getElem hlt]
    exact List.getElem_mem hlt
  refine ⟨⟨?_, ?_, ?_⟩, hmem, ?_⟩
  · intro h1
    simp [mitmDirector, h1]
  · intro h1 h2
    simp [mitmDirector, h1, h2]
  · intro h1 h2
    simp [mitmDirector, h1, h2]
  · intro hboth hpool
    by_cases h1 : req.hApiKey = ""
    · by_cases h2 : req.qKey = ""
      · have hh : ((mitmDirector req rot (.ok true) th).1).hApiKey
            = (getNextAPIKey rot).1 := by
          simp [mitmDirector, h1, h2]
        have hq : ((mitmDirector req rot (.ok true) th).1).qKey = "" := by
          simp [mitmDirector, h1, h2]
        refine ⟨?_, ?_⟩
        · rw [hh]
          exact fun hmem2 => hpool _ hmem2 hmem
        · rw [hq]
          exact empty_not_mem_sentCreds req
      · have hh : ((mitmDirector req rot (.ok true) th).1).hApiKey = "" := by
          simp [mitmDirector, h1, h2]
        have hq : ((mitmDirector req rot (.ok true) th).1).qKey
            = (getNextAPIKey rot).1 := by
          simp [mitmDirector, h1, h2]
        refine ⟨?_, ?_⟩
        · rw [hh]
          exact empty_not_mem_sentCreds req
        · rw [hq]
          exact fun hmem2 => hpool _ hmem2 hmem
    · have h2 : req.qKey = "" := by
        by_contra h2
        exact hboth ⟨h1, h2⟩
      have hh : ((mitmDirector req rot (.ok true) th).1).hApiKey
          = (getNextAPIKey rot).1 := by
        simp [mitmDirector, h1]
      have hq : ((mitmDirector req rot (.ok true) th).1).qKey = "" := by
        simp [mitmDirector, h1, h2]
      refine ⟨?_, ?_⟩
      · rw [hh]
        exact fun hmem2 => hpool _ hmem2 hmem
      · rw [hq]
        exact empty_not_mem_sentCreds req

/-- A request carrying both an `x-goog-api-key` header and a URL `key`
parameter, neither value in the pool `[K1]`. -/
def c1Req : GReq := { hApiKey := "H", qKey := "Q" }

def c1Rot : RotatorState := ⟨["K1"], 0⟩

/-- Counterexample to claim C1 as stated: on `c1Req` the Director replaces
only the header, so the outbound URL `key` parameter still equals the
value `Q` the client sent, although `Q` is not in the pool. -/
theorem spec_C1_counterexample :
    (∀ v ∈ sentCreds c1Req, v ∉ c1Rot.apiKeys) ∧
    ((mitmDirector c1Req c1Rot (.ok true) googleHost).1).qKey ∈ sentCreds c1Req := by
  decide

/-- Witness for C1: a request carrying only the header, pool `[K1, K2]`. -/
def c1WReq : GReq := { hApiKey := "H" }

theorem spec_C1_director_substitution_witness :
    ((mitmDirector c1WReq ⟨["K1", "K2"], 0⟩ (.ok true) googleHost).1).hApiKey
        = (getNextAPIKey ⟨["K1", "K2"], 0⟩).1 ∧
    ((mitmDirector c1WReq ⟨["K1", "K2"], 0⟩ (.ok true) googleHost).1).qKey
        = c1WReq.qKey :=
  (spec_C1_director_substitution c1WReq ⟨["K1", "K2"], 0⟩ googleHost
    (by decide)).1.1 (by decide)

/-- The intercepted-session path a blocked request takes: the Director runs
first (stamping the synthetic headers), then the transport's RoundTrip. -/
def blockedRoundTrip (req : GReq) (rot : RotatorState) (auth : AuthResult)
    (th : String) (originResp : GResp) : RoundTripOut :=
  mitmRoundTrip ((mitmDirector req rot auth th).1) originResp

/-- Claim C3 (amended): for a blocked outcome (statusCode, message) the
transport strips both synthetic headers and locally builds a plain-text
response with that status code, the request's Proto fields and
`text/plain; charset=utf-8`, writing nothing to the origin; the body is
exactly the message whenever the message is non-empty (an empty message
falls back to the standard status text — see the counterexample).  In
particular an authorizer reply of HTTP 404 with body
`{"message":"not found"}` yields a local 404 whose body is `not found`
with no bytes sent to the origin. -/
theorem spec_C3_blocked_roundtrip (req : GReq) (rot : RotatorState) (th : String)
    (originResp : GResp) (sc : Nat) (msg : String) :
    ((blockedRoundTrip req rot (.serverErr sc msg) th originResp).sentToOrigin = [] ∧
     (blockedRoundTrip req rot (.serverErr sc msg) th originResp).finalReq.hAuthCode = "" ∧
     (blockedRoundTrip req rot (.serverErr sc msg) th originResp).finalReq.hAuthMsg = "" ∧
     (blockedRoundTrip req rot (.serverErr sc msg) th originResp).response.statusCode = sc ∧
     (blockedRoundTrip req rot (.serverErr sc msg) th originResp).response.contentType
        = "text/plain; charset=utf-8" ∧
     (blockedRoundTrip req rot (.serverErr sc msg) th originResp).response.proto = req.proto ∧
     (blockedRoundTrip req rot (.serverErr sc msg) th originResp).response.protoMajor
        = req.protoMajor ∧
     (blockedRoundTrip req rot (.serverErr sc msg) th originResp).response.protoMinor
        = req.protoMinor ∧
     (msg ≠ "" →
       (blockedRoundTrip req rot (.serverErr sc msg) th originResp).response.body = msg)) ∧
    ((blockedRoundTrip req rot
        (authServerErrorOf 404 "\x7b\"message\":\"not found\"\x7d" (some "not found"))
        th originResp).response.statusCode = 404 ∧
     (blockedRoundTrip req rot
        (authServerErrorOf 404 "\x7b\"message\":\"not found\"\x7d" (some "not found"))
        th originResp).response.body = "not found" ∧
     (blockedRoundTrip req rot
        (authServerErrorOf 404 "\x7b\"message\":\"not found\"\x7d" (some "not found"))
        th originResp).sentToOrigin = []) := by
  have hgen : ∀ (sc' : Nat) (msg' : String),
      (blockedRoundTrip req rot (.serverErr sc' msg') th originResp).sentToOrigin = [] ∧
      (blockedRoundTrip req rot (.serverErr sc' msg') th originResp).finalReq.hAuthCode = "" ∧
      (blockedRoundTrip req rot (.serverErr sc' msg') th originResp).finalReq.hAuthMsg = "" ∧
      (blockedRoundTrip req rot (.serverErr sc' msg') th originResp).response.statusCode = sc' ∧
      (blockedRoundTrip req rot (.serverErr sc' msg') th originResp).response.contentType
         = "text/plain; charset=utf-8" ∧
      (blockedRoundTrip req rot (.serverErr sc' msg') th originResp).response.proto = req.proto ∧
      (blockedRoundTrip req rot (.serverErr sc' msg') th originResp).response.protoMajor
         = req.protoMajor ∧
      (blockedRoundTrip req rot (.serverErr sc' msg') th originResp).response.protoMinor
         = req.protoMinor ∧
      (msg' ≠ "" →
        (blockedRoundTrip req rot (.serverErr sc' msg') th originResp).response.body = msg') := by
    intro sc' msg'
    have hd : (mitmDirector req rot (.serverErr sc' msg') th).1
        = { req with hAuthCode := itoaS sc', hAuthMsg := msg' } := rfl
    simp only [blockedRoundTrip, hd, mitmRoundTrip]
    rw [if_pos (show ({ req with hAuthCode := itoaS sc', hAuthMsg := msg' } : GReq).hAuthCode
        ≠ "" from itoaS_ne_empty sc')]
    simp only [atoiS_itoaS]
    refine ⟨trivial, trivial, trivial, trivial, trivial, trivial, trivial, trivial, ?_⟩
    intro hm
    simp [hm]
  have h404 : authServerErrorOf 404 "\x7b\"message\":\"not found\"\x7d" (some "not found")
      = .serverErr 404 "not found" := rfl
  refine ⟨hgen sc msg, ?_⟩
  rw [h404]
  exact ⟨(hgen 404 "not found").2.2.2.1,
    (hgen 404 "not found").2.2.2.2.2.2.2.2 (by decide),
    (hgen 404 "not found").1⟩

def reqStub : GReq := {}

def respStub : GResp :=
  { statusCode := 200, status := "200 OK", proto := "HTTP/1.1",
    protoMajor := 1, protoMinor := 1, contentType := "", body := "" }

/-- Counterexample to claim C3 as stated: a blocked outcome whose message
is empty (e.g. an authorizer 404 with an empty body) produces the standard
status text `Not Found` as body, not the (empty) message. -/
theorem spec_C3_counterexample :
    (blockedRoundTrip reqStub ⟨["K1"], 0⟩ (.serverErr 404 "") googleHost respStub).response.body
        = "Not Found" ∧ ("Not Found" : String) ≠ "" := by
  refine ⟨?_, by decide⟩
  have hd : (mitmDirector reqStub ⟨["K1"], 0⟩ (.serverErr 404 "") googleHost).1
      = { reqStub with hAuthCode := itoaS 404, hAuthMsg := "" } := rfl
  simp only [blockedRoundTrip, hd, mitmRoundTrip]
  rw [if_pos (show ({ reqStub with hAuthCode := itoaS 404, hAuthMsg := "" } : GReq).hAuthCode
      ≠ "" from itoaS_ne_empty 404)]
  simp only [atoiS_itoaS]
  rfl

/-- Witness for C3 at a concrete blocked outcome (401, `denied`). -/
theorem spec_C3_blocked_roundtrip_witness :
    (blockedRoundTrip reqStub ⟨["K1"], 0⟩ (.serverErr 401 "denied") googleHost respStub).response.statusCode
        = 401 ∧
    (blockedRoundTrip reqStub ⟨["K1"], 0⟩ (.serverErr 401 "denied") googleHost respStub).response.body
        = "denied" ∧
    (blockedRoundTrip reqStub ⟨["K1"], 0⟩ (.serverErr 401 "denied") googleHost respStub).sentToOrigin
        = [] := by
  have h := spec_C3_blocked_roundtrip reqStub ⟨["K1"], 0⟩ googleHost respStub 401 "denied"
  exact ⟨h.1.2.2.2.1, h.1.2.2.2.2.2.2.2.2 (by decide), h.1.1⟩

/-! ## DefenseSystem blocklist and `CheckRequest`; `handleRequest` dispatch.

`DomainBlocker` stores lowercased names; `IsBlocked` lowercases the query.
`handleRequest` (proxy.go) is embedded as the list of observable actions it
performs: it logs and immediately dispatches — CONNECT to `handleConnect`
(which MITM-intercepts the Google host and tunnels everything else), any
other method to `handleHTTP`.  `hostnameOf` models the
`net.SplitHostPort` use in `handleConnect`: the part before the colon, the
whole string when there is no colon (the error fallback). -/

def knownAttackerDomains : List String :=
  ["hksjz.net", "btp3.app", "btbtptptpie.crxo5.com", "crxo5.com"]

/-- `strings.ToLower` on the ASCII hostnames this system compares. -/
def toLowerStr (s : String) : String :=
  String.mk (s.data.map Char.toLower)

def DomainBlocker := String → Bool

def NewDomainBlocker (initial : List String) : DomainBlocker :=
  fun d => initial.any (fun dom => dom != "" && toLowerStr dom == d)

def IsBlocked (db : DomainBlocker) (domain : String) : Bool :=
  db (toLowerStr domain)

def domainBlockedMessage (hostname : String) : String :=
  "域名 " ++ hostname ++ " 已被禁止访问"

structure DefenseState where
  enableRateLimit : Bool
  enableDomainBlock : Bool
  blocker : DomainBlocker
  limiter : RateLimiter

/-- `DefaultDefenseSystem.CheckRequest`: deny a blocklisted hostname, else
consult the rate limiter, else allow. -/
def CheckRequest (d : DefenseState) (clientIP hostname : String) (now : Nat) :
    (Bool × String) × DefenseState :=
  if d.enableDomainBlock && hostname != "" && IsBlocked d.blocker hostname then
    ((false, domainBlockedMessage hostname), d)
  else if d.enableRateLimit then
    match CheckAndUpdateLimit d.limiter clientIP now with
    | ((allowed, message), rl1) =>
      if allowed then ((true, ""), { d with limiter := rl1 })
      else ((false, message), { d with limiter := rl1 })
  else ((true, ""), d)

inductive DispatchKind where
  | mitm
  | tunnel
  | httpForward
deriving DecidableEq

inductive ProxyEvent where
  | checkRequest (clientIP hostname : String)
  | dispatch (k : DispatchKind)
deriving DecidableEq

def ProxyEvent.isCheck : ProxyEvent → Bool
  | .checkRequest _ _ => true
  | .dispatch _ => false

def ProxyEvent.isDispatch : ProxyEvent → Bool
  | .checkRequest _ _ => false
  | .dispatch _ => true

def takeUntilColon : List Char → List Char
  | [] => []
  | c :: rest => if c = ':' then [] else c :: takeUntilColon rest

def hostnameOf (hostport : String) : String :=
  if hostport.data.contains ':' then String.mk (takeUntilColon hostport.data)
  else hostport

/-- The observable actions of `ProxyServer.handleRequest` on one accepted
request (the comment in the source at the dispatch reads "不在这里认证" —
"no authentication here"). -/
def handleRequestTrace (method hostport : String) : List ProxyEvent :=
  if method = "CONNECT" then
    [.dispatch (if hostnameOf hostport = googleHost then .mitm else .tunnel)]
  else
    [.dispatch .httpForward]

/-- The claim's temporal property: every dispatch event in a trace is
preceded by a `CheckRequest` event. -/
def screenedBeforeDispatch (tr : List ProxyEvent) : Prop :=
  ∀ i, (hi : i < tr.length) → (tr.get ⟨i, hi⟩).isDispatch = true →
    ∃ j, ∃ (hj : j < i), (tr.get ⟨j, Nat.lt_trans hj hi⟩).isCheck = true

/-- Counterexample to claim C6 as stated: a CONNECT for the blocklisted
host `hksjz.net:443` is dispatched (opaquely tunneled) with no
`DefenseSystem.CheckRequest` having run before it. -/
theorem spec_C6_counterexample :
    ¬ screenedBeforeDispatch (handleRequestTrace "CONNECT" "hksjz.net:443") := by
  intro h
  rcases h 0 (by decide) (by decide) with ⟨j, hj, _⟩
  exact Nat.not_lt_zero j hj

/-- Claim C6 (amended): `handleRequest` dispatches every request (CONNECT
to the MITM engine or the opaque tunnel, anything else to the plain-HTTP
forwarder) without ever invoking `DefenseSystem.CheckRequest` — its traces
contain a dispatch and no check event; `CheckRequest` itself, when domain
blocking is enabled, denies any request whose hostname is blocklisted
under case-insensitive exact matching, with the blocked-domain message,
and passes a rate-limiter denial through with the limiter's message. -/
theorem spec_C6_defense_screening (method hostport : String) (d : DefenseState)
    (ip host : String) (now : Nat) :
    (∀ e ∈ handleRequestTrace method hostport, e.isCheck = false) ∧
    (∃ k, ProxyEvent.dispatch k ∈ handleRequestTrace method hostport) ∧
    (d.enableDomainBlock = true → host ≠ "" → IsBlocked d.blocker host = true →
      CheckRequest d ip host now = ((false, domainBlockedMessage host), d)) ∧
    (∀ initial, IsBlocked (NewDomainBlocker initial) host = true ↔
      ∃ dom ∈ initial, dom ≠ "" ∧ toLowerStr dom = toLowerStr host) ∧
    (∀ allowed message rl1,
      CheckAndUpdateLimit d.limiter ip now = ((allowed, message), rl1) →
      ¬(d.enableDomainBlock = true ∧ host ≠ "" ∧ IsBlocked d.blocker host = true) →
      d.enableRateLimit = true → allowed = false →
      CheckRequest d ip host now = ((false, message), { d with limiter := rl1 })) := by
  refine ⟨?_, ?_, ?_, ?_, ?_⟩
  · by_cases hm : method = "CONNECT" <;>
      simp [handleRequestTrace, hm, ProxyEvent.isCheck]
  · by_cases hm : method = "CONNECT"
    · exact ⟨if hostnameOf hostport = googleHost then .mitm else .tunnel,
        by simp [handleRequestTrace, hm]⟩
    · exact ⟨.httpForward, by simp [handleRequestTrace, hm]⟩
  · intro h1 h2 h3
    have hcond : (d.enableDomainBlock && (host != "") && IsBlocked d.blocker host) = true := by
      rw [Bool.and_eq_true, Bool.and_eq_true]
      exact ⟨⟨h1, by simpa using h2⟩, h3⟩
    simp [CheckRequest, hcond]
  · intro initial
    simp [IsBlocked, NewDomainBlocker, List.any_eq_true, Bool.and_eq_true,
      bne_iff_ne, beq_iff_eq]
  · intro allowed message rl1 hc hnb hrl hfalse
    have hcond : (d.enableDomainBlock && (host != "") && IsBlocked d.blocker host) = false := by
      cases hb : (d.enableDomainBlock && (host != "") && IsBlocked d.blocker host) with
      | false => rfl
      | true =>
          exfalso
          rw [Bool.and_eq_true, Bool.and_eq_true] at hb
          exact hnb ⟨hb.1.1, by simpa using hb.1.2, hb.2⟩
    subst hfalse
    simp [CheckRequest, hcond, hrl, hc]

/-- A defense state with the seeded blocklist and the scenario limiter. -/
def defenseExample : DefenseState :=
  { enableRateLimit := true, enableDomainBlock := true,
    blocker := NewDomainBlocker knownAttackerDomains, limiter := rlScenario0 }

/-- Witness for C6 (amended): a request for `HKSJZ.net` (mixed case) is
denied by `CheckRequest` against the seeded blocklist. -/
theorem spec_C6_defense_screening_witness :
    CheckRequest defenseExample "1.2.3.4" "HKSJZ.net" 0
      = ((false, domainBlockedMessage "HKSJZ.net"), defenseExample) :=
  (spec_C6_defense_screening "CONNECT" "HKSJZ.net:443" defenseExample
    "1.2.3.4" "HKSJZ.net" 0).2.2.1 rfl (by decide) (by decide)

/-! ## CertificateAuthority leaf issuance: `signHost`.

Randomness (`rand.Int` for the serial, `rsa.GenerateKey` for the key) and
`net.ParseIP` are external; their results enter as parameters (`serial`,
`keyId`, `parsedIP`).  `time.Time` is Unix seconds in UTC; `AddDate(1,0,0)`
is calendar-year addition on the proleptic Gregorian calendar
(`civilFromDays` / `daysFromCivil` are the standard civil-calendar
conversions, valid for the post-1970 instants used here), which normalizes
Feb 29 to Mar 1 exactly as Go does.  DER encoding and signing are
symbolic: `CertDER.leaf` carries the template it encodes and `CertDER.caRoot`
stands for the loaded root's DER (`loadedCA.Certificate[0]`). -/

def civilFromDays (z : Nat) : Nat × Nat × Nat :=
  let z1 := z + 719468
  let era := z1 / 146097
  let doe := z1 % 146097
  let yoe := (doe - doe / 1460 + doe / 36524 - doe / 146096) / 365
  let y := yoe + era * 400
  let doy := doe - (365 * yoe + yoe / 4 - yoe / 100)
  let mp := (5 * doy + 2) / 153
  let d := doy - (153 * mp + 2) / 5 + 1
  let m := if mp < 10 then mp + 3 else mp - 9
  (if m ≤ 2 then y + 1 else y, m, d)

def daysFromCivil (y m d : Nat) : Nat :=
  let y1 := if m ≤ 2 then y - 1 else y
  let era := y1 / 400
  let yoe := y1 % 400
  let doy := (153 * (if m > 2 then m - 3 else m + 9) + 2) / 5 + (d - 1)
  let doe := yoe * 365 + yoe / 4 - yoe / 100 + doy
  era * 146097 + doe - 719468

/-- Go's `t.AddDate(1, 0, 0)`: same month, day and time of day, one
calendar year later (normalized). -/
def addYearGo (t : Nat) : Nat :=
  let tod := t % 86400
  match civilFromDays (t / 86400) with
  | (y, m, d) => daysFromCivil (y + 1) m d * 86400 + tod

inductive ExtKeyUsage where
  | serverAuth
  | clientAuth
deriving DecidableEq

structure LeafTemplate where
  serialNumber : Nat
  commonName : String
  notBefore : Nat
  notAfter : Nat
  keyUsageKeyEncipherment : Bool
  keyUsageDigitalSignature : Bool
  extKeyUsage : List ExtKeyUsage
  dnsNames : List String
  ipAddresses : List String
deriving DecidableEq

inductive CertDER where
  | leaf (template : LeafTemplate) (keyId : Nat)
  | caRoot
deriving DecidableEq

structure TLSCertificate where
  certificate : List CertDER
  privateKeyBits : Nat
  privateKeyId : Nat
deriving DecidableEq

/-- The x509 template `signHost` fills in for `host` at issuance time
`now`, given the drawn serial and the `net.ParseIP(host)` result. -/
def signHostTemplate (host : String) (now serial : Nat)
    (parsedIP : Option String) : LeafTemplate :=
  { serialNumber := serial,
    commonName := host,
    notBefore := now - 3600,
    notAfter := addYearGo now,
    keyUsageKeyEncipherment := true,
    keyUsageDigitalSignature := true,
    extKeyUsage := [.serverAuth],
    dnsNames := [host],
    ipAddresses := match parsedIP with | some ip => [ip] | none => [] }

/-- `signHost`: sign the template with the CA and return a TLS certificate
whose chain is the new leaf DER followed by the root DER, with the freshly
generated 2048-bit RSA key. -/
def signHost (host : String) (now serial keyId : Nat)
    (parsedIP : Option String) : TLSCertificate :=
  { certificate := [CertDER.leaf (signHostTemplate host now serial parsedIP) keyId,
                    CertDER.caRoot],
    privateKeyBits := 2048,
    privateKeyId := keyId }

/-- Claim C7 (amended): the issued leaf carries the drawn serial (a random
positive integer below 2^128), NotBefore is one hour before issuance,
NotAfter is issuance time plus one calendar year — hence one year and one
hour after NotBefore, not one year after it —, ExtKeyUsage is ServerAuth
only, the DNS SANs are exactly the literal host, an IP SAN is present
exactly when `net.ParseIP(host)` succeeds, and the returned TLS
certificate is the pair [leafDER, rootDER] with a fresh 2048-bit RSA key. -/
theorem spec_C7_leaf_certificate (host : String) (now serial keyId : Nat)
    (parsedIP : Option String) (hserial : serial < 2 ^ 128) (hnow : 3600 ≤ now) :
    (signHostTemplate host now serial parsedIP).serialNumber = serial ∧
    (signHostTemplate host now serial parsedIP).serialNumber < 2 ^ 128 ∧
    (signHostTemplate host now serial parsedIP).notBefore = now - 3600 ∧
    (signHostTemplate host now serial parsedIP).notAfter
      = addYearGo ((signHostTemplate host now serial parsedIP).notBefore + 3600) ∧
    (signHostTemplate host now serial parsedIP).extKeyUsage = [.serverAuth] ∧
    (signHostTemplate host now serial parsedIP).dnsNames = [host] ∧
    (∀ ip, parsedIP = some ip →
      (signHostTemplate host now serial parsedIP).ipAddresses = [ip]) ∧
    (parsedIP = none → (signHostTemplate host now serial parsedIP).ipAddresses = []) ∧
    (signHost host now serial keyId parsedIP).certificate
      = [CertDER.leaf (signHostTemplate host now serial parsedIP) keyId, CertDER.caRoot] ∧
    (signHost host now serial keyId parsedIP).privateKeyBits = 2048 := by
  refine ⟨rfl, hserial, rfl, ?_, rfl, rfl, ?_, ?_, rfl, rfl⟩
  · have h : now - 3600 + 3600 = now := Nat.sub_add_cancel hnow
    simp [signHostTemplate, h]
  · intro ip hip
    simp [signHostTemplate, hip]
  · intro hip
    simp [signHostTemplate, hip]

/-- Witness for C7 at host `example.com`, issuance 2024-06-01 12:00:00Z. -/
theorem spec_C7_leaf_certificate_witness :
    (signHostTemplate "example.com" 1717243200 7 none).notBefore = 1717243200 - 3600 ∧
    (signHost "example.com" 1717243200 7 11 none).certificate
      = [CertDER.leaf (signHostTemplate "example.com" 1717243200 7 none) 11,
         CertDER.caRoot] := by
  have h := spec_C7_leaf_certificate "example.com" 1717243200 7 11 none
    (by norm_num) (by norm_num)
  exact ⟨h.2.2.1, h.2.2.2.2.2.2.2.2.1⟩

/-- Counterexample to claim C7 as stated: at issuance 2024-06-01 12:00:00Z
(Unix 1717243200), NotAfter (2025-06-01 12:00:00Z) is neither NotBefore
plus one calendar year (2025-06-01 11:00:00Z) nor NotBefore plus 365 days:
it is one hour later than both. -/
theorem spec_C7_counterexample :
    (signHostTemplate "example.com" 1717243200 7 none).notAfter
        ≠ addYearGo ((signHostTemplate "example.com" 1717243200 7 none).notBefore) ∧
    (signHostTemplate "example.com" 1717243200 7 none).notAfter
        ≠ (signHostTemplate "example.com" 1717243200 7 none).notBefore + 365 * 86400 := by
  constructor <;> decide

/-! ## TunnelDialer: `dialViaProxy`.

The upstream proxy is an external peer: its parsed HTTP response to the
CONNECT request enters as the `resp` parameter (status code, status line,
body).  The observable effects are the bytes written to the upstream-proxy
socket, whether that socket was closed, and the result. -/

structure UpstreamResponse where
  statusCode : Nat
  status : String
  body : String
deriving DecidableEq

structure DialViaProxyOut where
  written : String
  connClosed : Bool
  tlsPerformed : Bool
  result : Except String Unit

/-- The literal CONNECT request `dialViaProxy` writes (note the
`User-Agent: agent-go-proxy/0.1` header line). -/
def connectRequestBytes (target : String) : String :=
  "CONNECT " ++ target ++ " HTTP/1.1\r\nHost: " ++ target
    ++ "\r\nUser-Agent: agent-go-proxy/0.1\r\nProxy-Connection: Keep-Alive\r\n\r\n"

/-- Modelled from the spec's words, for comparison only: the CONNECT bytes
the claim says are written (Host and Proxy-Connection lines only). -/
def claimedConnectRequestBytes (target : String) : String :=
  "CONNECT " ++ target ++ " HTTP/1.1\r\nHost: " ++ target
    ++ "\r\nProxy-Connection: Keep-Alive\r\n\r\n"

/-- `dialViaProxy` after a successful TCP dial to the upstream proxy:
write the CONNECT request, parse the response; on any non-200 status close
the socket and return an error carrying the status line and the body; on
200 return the (not-TLS-wrapped) socket. -/
def dialViaProxy (target : String) (resp : UpstreamResponse) : DialViaProxyOut :=
  if resp.statusCode = 200 then
    { written := connectRequestBytes target, connClosed := false,
      tlsPerformed := false, result := .ok () }
  else
    { written := connectRequestBytes target, connClosed := true,
      tlsPerformed := false,
      result := .error ("上游代理连接失败: " ++ resp.status ++ ", 响应: " ++ resp.body) }

/-- Claim C8 (amended): for every target and upstream response the dialer
writes exactly `connectRequestBytes target` (which includes a
`User-Agent: agent-go-proxy/0.1` line the claim omits); on a non-200
response it closes the socket and returns an error whose text contains the
response body; on 200 it returns the socket without closing it and without
performing TLS. -/
theorem spec_C8_dial_via_proxy (target : String) (resp : UpstreamResponse) :
    (dialViaProxy target resp).written = connectRequestBytes target ∧
    (resp.statusCode ≠ 200 →
      (dialViaProxy target resp).connClosed = true ∧
      ∃ pre post, (dialViaProxy target resp).result = .error (pre ++ resp.body ++ post)) ∧
    (resp.statusCode = 200 →
      (dialViaProxy target resp).result = .ok () ∧
      (dialViaProxy target resp).connClosed = false ∧
      (dialViaProxy target resp).tlsPerformed = false) := by
  refine ⟨?_, ?_, ?_⟩
  · by_cases h : resp.statusCode = 200 <;> simp [dialViaProxy, h]
  · intro h
    refine ⟨by simp [dialViaProxy, h], "上游代理连接失败: " ++ resp.status ++ ", 响应: ", "", ?_⟩
    simp [dialViaProxy, h]
  · intro h
    simp [dialViaProxy, h]

/-- Witness for C8: a refused CONNECT (503 with body `denied`) closes the
socket and surfaces the body. -/
theorem spec_C8_dial_via_proxy_witness :
    (dialViaProxy "example.com:443" ⟨503, "503 Service Unavailable", "denied"⟩).connClosed
        = true ∧
    ∃ pre post,
      (dialViaProxy "example.com:443" ⟨503, "503 Service Unavailable", "denied"⟩).result
        = .error (pre ++ "denied" ++ post) :=
  (spec_C8_dial_via_proxy "example.com:443"
    ⟨503, "503 Service Unavailable", "denied"⟩).2.1 (by decide)

/-- Counterexample to claim C8 as stated: the bytes written for target
`example.com:443` are not the claimed literal — the code also sends a
`User-Agent: agent-go-proxy/0.1` header line. -/
theorem spec_C8_counterexample :
    (dialViaProxy "example.com:443" ⟨200, "200 OK", ""⟩).written
      ≠ claimedConnectRequestBytes "example.com:443" := by
  decide
